import Mathlib

/-
Verification of huaweisms/proxy/proxy_server.py (huawei-modem-python-api-client).

The file shallowly embeds the poll-and-cache core: the ModemData synchronised
dictionary, the ModemScraper.run tick (cooldown check, login when the session
is absent, the sequential endpoint fetch loop with application-error detection,
the run-level exception handler, and the finally-block diagnostic dump), and
the Flask endpoint handler built by _get_modem_data_end_point_handler.

External collaborators (quick_login, get_from_url_raw, parse_xml_string,
check_error) are modelled as an environment of oracles; a raised Python
exception is an Except.error result.  The run function additionally records a
trace (whether a login was attempted, which endpoints were fetched with which
session, and the contents dumped by log_contents), so that properties such as
"endpoint C is never fetched" or "no fetch occurs during cooldown" are statable.
-/

namespace HuaweiProxy

/-- The fixed END_POINTS list (proxy_server.py lines 17-23). -/
def END_POINTS : List String :=
  ["/api/device/signal",
   "/api/net/net-mode",
   "/api/net/current-plmn",
   "/api/device/information",
   "/api/monitoring/traffic-statistics"]

/-- The dict `_data` of a ModemData object, as an association list with
Python-dict update semantics: assignment to an existing key replaces the value
in place, assignment to a new key appends it. -/
abbrev ModemDict := List (String × String)

/-- ModemData.set_data (lines 35-37): `self._data[key] = value` under the lock. -/
def set_data : ModemDict → String → String → ModemDict
  | [], k, v => [(k, v)]
  | (k', v') :: rest, k, v =>
      if k' = k then (k, v) :: rest else (k', v') :: set_data rest k v

/-- ModemData.get_data (lines 39-41): `self._data.get(key, None)` under the lock. -/
def get_data : ModemDict → String → Option String
  | [], _ => none
  | (k', v') :: rest, k => if k' = k then some v' else get_data rest k

/-- ModemData.log_contents (lines 43-50): iterates the dict items and calls
logger.debug on each.  The logging call cannot raise (the logging framework
swallows handler errors), so the dump is total; its observable effect is the
sequence of dumped items. -/
def log_contents (d : ModemDict) : List (String × String) := d

/-- The settings module values consumed by the scraper. -/
structure Settings where
  USERNAME : String
  PASSWORD : String
  MODEM_HOST : String
  ERROR_COUNTDOWN : Int
deriving DecidableEq

/-- Result object of get_from_url_raw: a transport status code and a body text. -/
structure FetchResult where
  status_code : Int
  text : String
deriving DecidableEq

/-- Parsed document returned by parse_xml_string; check_error is applied to its
documentElement attribute. -/
structure XmlDoc (Xml : Type) where
  documentElement : Xml
deriving DecidableEq

/-- Oracles for the external collaborators; an Except.error value models a
raised Python exception, caught by run's except clause. -/
structure Env (Ctx Xml : Type) where
  quick_login : String → String → String → Except Unit Ctx
  get_from_url_raw : String → Ctx → Except Unit FetchResult
  parse_xml_string : String → Except Unit (XmlDoc Xml)
  check_error : Xml → Except Unit (Option String)

/-- Mutable fields of a ModemScraper object: the shared ModemData dictionary,
`_ctx` (the session handle) and `_error_countdown`. -/
structure ScraperState (Ctx : Type) where
  modem_data : ModemDict
  ctx : Option Ctx
  error_countdown : Int
deriving DecidableEq

/-- The freshly constructed state: ModemData() holds an empty dict, `_ctx` is
None and `_error_countdown` is 0. -/
def initialState (Ctx : Type) : ScraperState Ctx := ⟨[], none, 0⟩

/-- The URL built in the fetch loop: "http://{host}{end_point}". -/
def mkUrl (host ep : String) : String := "http://" ++ host ++ ep

/-- How the fetch loop of run (lines 80-99) ended. -/
inductive LoopOutcome where
  | completed
  | appError
  | raised
deriving DecidableEq

/-- Result of the fetch loop: the dictionary contents, how the loop ended, and
the trace of fetch calls made, each the endpoint together with the session
handle passed to get_from_url_raw. -/
structure LoopResult (Ctx : Type) where
  data : ModemDict
  outcome : LoopOutcome
  fetched : List (String × Ctx)
deriving DecidableEq

/-- The fetch loop of run (lines 80-99): for each endpoint in order call
get_from_url_raw; on a non-200 status fall through to the next endpoint; on a
200 status parse the body and run check_error; an error marker breaks out of
the loop (after the caller clears the session and sets the cooldown), otherwise
the body text is stored under the endpoint key and the loop continues.  A
raised exception anywhere aborts the loop with outcome raised. -/
def scrapeLoop {Ctx Xml : Type} (env : Env Ctx Xml) (host : String) (c : Ctx) :
    List String → ModemDict → LoopResult Ctx
  | [], d => ⟨d, .completed, []⟩
  | ep :: rest, d =>
      match env.get_from_url_raw (mkUrl host ep) c with
      | .error _ => ⟨d, .raised, [(ep, c)]⟩
      | .ok result =>
          if result.status_code = 200 then
            match env.parse_xml_string result.text with
            | .error _ => ⟨d, .raised, [(ep, c)]⟩
            | .ok xmldoc =>
                match env.check_error xmldoc.documentElement with
                | .error _ => ⟨d, .raised, [(ep, c)]⟩
                | .ok (some _) => ⟨d, .appError, [(ep, c)]⟩
                | .ok none =>
                    let r := scrapeLoop env host c rest (set_data d ep result.text)
                    ⟨r.data, r.outcome, (ep, c) :: r.fetched⟩
          else
            let r := scrapeLoop env host c rest d
            ⟨r.data, r.outcome, (ep, c) :: r.fetched⟩

/-- Outcome of one invocation of ModemScraper.run. -/
inductive RunOutcome where
  | skipped
  | completed
  | appError
  | raised
deriving DecidableEq

/-- Result of one invocation of run: the new scraper state, how the run ended,
whether quick_login was called, the trace of fetch calls, and the items dumped
by the finally-block call to log_contents. -/
structure RunResult (Ctx : Type) where
  state : ScraperState Ctx
  outcome : RunOutcome
  loginAttempted : Bool
  fetched : List (String × Ctx)
  dumped : List (String × String)
deriving DecidableEq

/-- The part of run after a session handle c is available (either `_ctx` was
already set or quick_login just returned c and it was assigned to `_ctx`):
run the fetch loop; on completion keep the session and countdown; on an
application error or a caught exception clear the session and set the
countdown to settings.ERROR_COUNTDOWN.  The finally block dumps the final
dictionary contents in every case. -/
def runWithCtx {Ctx Xml : Type} (env : Env Ctx Xml) (st : Settings)
    (s : ScraperState Ctx) (c : Ctx) (la : Bool) : RunResult Ctx :=
  match scrapeLoop env st.MODEM_HOST c END_POINTS s.modem_data with
  | ⟨d', .completed, f⟩ =>
      ⟨⟨d', some c, s.error_countdown⟩, .completed, la, f, log_contents d'⟩
  | ⟨d', .appError, f⟩ =>
      ⟨⟨d', none, st.ERROR_COUNTDOWN⟩, .appError, la, f, log_contents d'⟩
  | ⟨d', .raised, f⟩ =>
      ⟨⟨d', none, st.ERROR_COUNTDOWN⟩, .raised, la, f, log_contents d'⟩

/-- ModemScraper.run (lines 59-107).  If the error countdown is positive it is
decremented and nothing else happens; otherwise a login is attempted when
`_ctx` is None (a login exception is caught by the except clause, which clears
the session and sets the countdown), and then the fetch loop runs.  The
try/except makes the function total; the finally block always dumps the
current dictionary contents. -/
def run {Ctx Xml : Type} (env : Env Ctx Xml) (st : Settings)
    (s : ScraperState Ctx) : RunResult Ctx :=
  if 0 < s.error_countdown then
    ⟨⟨s.modem_data, s.ctx, s.error_countdown - 1⟩, .skipped, false, [],
      log_contents s.modem_data⟩
  else
    match s.ctx with
    | some c => runWithCtx env st s c false
    | none =>
        match env.quick_login st.USERNAME st.PASSWORD st.MODEM_HOST with
        | .error _ =>
            ⟨⟨s.modem_data, none, st.ERROR_COUNTDOWN⟩, .raised, true, [],
              log_contents s.modem_data⟩
        | .ok c => runWithCtx env st s c true

/-- Iterated scheduler ticks: state after n invocations of run, tick k using
environment envs k. -/
def runs {Ctx Xml : Type} (envs : Nat → Env Ctx Xml) (st : Settings)
    (s : ScraperState Ctx) : Nat → ScraperState Ctx
  | 0 => s
  | n + 1 => (run (envs n) st (runs envs st s n)).state

/-- HTTP response object built by the endpoint handler. -/
structure HttpResponse where
  response : Option String
  content_type : String
deriving DecidableEq

/-- Python attribute lookup on a ModemData instance, restricted to attributes
whose value is a dictionary accessor of type key to optional value.  The class
defines exactly one such accessor, get_data; looking up any other name raises
AttributeError. -/
def modemDataLookup : String → Option (ModemDict → String → Option String)
  | "get_data" => some get_data
  | _ => none

/-- The handler built by FlaskAppWrapper._get_modem_data_end_point_handler
(lines 131-136): it evaluates `self._modem_data.get(endpoint)` and wraps the
result in a Response with content type application/xml.  The attribute access
is modelled through modemDataLookup, so the lookup of the name "get" decides
whether the handler returns a response or raises AttributeError. -/
def end_point_handler (d : ModemDict) (endpoint : String) :
    Except String HttpResponse :=
  match modemDataLookup ("get") with
  | none => .error ("AttributeError")
  | some f => .ok ⟨f d endpoint, "application/xml"⟩

/-- Iterated application of set_data for a whole list of (key, value)
operations: the only Snapshot Store operation that mutates the dictionary. -/
def setAll : ModemDict → List (String × String) → ModemDict
  | d, [] => d
  | d, p :: ops => setAll (set_data d p.1 p.2) ops

/-- Iterated storing of fetched bodies: what the fetch loop does to the
dictionary along a prefix of endpoints that all succeed with body text given
by the function body. -/
def storeAll : ModemDict → List String → (String → String) → ModemDict
  | d, [], _ => d
  | d, a :: eps, body => storeAll (set_data d a (body a)) eps body

/-- Concrete settings used to exercise the definitions. -/
def stW : Settings := ⟨"admin", "admin", "h", 3⟩

/-- Concrete environment in which login yields session 7 and every fetch
succeeds with a 200 status, the body being the requested URL, with no error
marker anywhere. -/
def okEnv : Env Nat String :=
  ⟨fun _ _ _ => .ok 7, fun u _ => .ok ⟨200, u⟩, fun t => .ok ⟨t⟩,
   fun _ => .ok none⟩

/-- Concrete environment in which every fetch returns transport status 500. -/
def failEnv : Env Nat String :=
  ⟨fun _ _ _ => .ok 7, fun _ _ => .ok ⟨500, ""⟩, fun t => .ok ⟨t⟩,
   fun _ => .ok none⟩

/-- Concrete environment in which quick_login raises. -/
def loginErrEnv : Env Nat String :=
  ⟨fun _ _ _ => .error (), fun _ _ => .ok ⟨200, ""⟩, fun t => .ok ⟨t⟩,
   fun _ => .ok none⟩

/-- Concrete environment in which the body of the net-mode endpoint carries an
application error marker and every other endpoint succeeds cleanly. -/
def appErrEnv : Env Nat String :=
  ⟨fun _ _ _ => .ok 7, fun u _ => .ok ⟨200, u⟩, fun t => .ok ⟨t⟩,
   fun x => .ok (if x = mkUrl ("h") ("/api/net/net-mode") then some ("112") else none)⟩

theorem get_set (d : ModemDict) (k k' v : String) :
    get_data (set_data d k v) k' = if k = k' then some v else get_data d k' := by
  induction d with
  | nil => simp [set_data, get_data]
  | cons p rest ih =>
      obtain ⟨a, b⟩ := p
      simp only [set_data]
      by_cases h1 : a = k
      · subst h1
        by_cases h2 : a = k' <;> simp [get_data, h2]
      · rw [if_neg h1]
        by_cases h2 : a = k'
        · have hkk : k ≠ k' := fun hh => h1 (h2.trans hh.symm)
          simp [get_data, h2, hkk]
        · simp [get_data, h1, h2, ih]

theorem get_setAll_not_mem (ops : List (String × String)) (d : ModemDict)
    (k : String) (h : k ∉ ops.map Prod.fst) :
    get_data (setAll d ops) k = get_data d k := by
  induction ops generalizing d with
  | nil => rfl
  | cons p ops ih =>
      simp only [List.map_cons, List.mem_cons] at h
      push_neg at h
      rw [setAll, ih _ h.2, get_set, if_neg (Ne.symm h.1)]

/-- C8: get_data after set_data on the same key returns exactly the value just
set; it keeps returning it across any further sequence of store operations
that sets no value for that key (set_data is the only mutating operation);
and get_data on the empty, never-set dictionary returns none. -/
theorem store_get_set_spec (d : ModemDict) (k v : String)
    (ops : List (String × String)) :
    get_data (set_data d k v) k = some v
    ∧ (k ∉ ops.map Prod.fst → get_data (setAll (set_data d k v) ops) k = some v)
    ∧ get_data [] k = none := by
  refine ⟨?_, ?_, rfl⟩
  · rw [get_set]; simp
  · intro h
    rw [get_setAll_not_mem _ _ _ h, get_set]
    simp

/-- Witness for C8 at concrete inputs. -/
theorem store_get_set_spec_witness :
    get_data (set_data [] ("a") ("1")) ("a") = some ("1")
    ∧ get_data (setAll (set_data [] ("a") ("1")) [(("b"), ("2"))]) ("a") = some ("1")
    ∧ get_data [] ("a") = none := by
  have h := store_get_set_spec [] ("a") ("1") [(("b"), ("2"))]
  exact ⟨h.1, h.2.1 (by decide), h.2.2⟩

theorem runWithCtx_dumped {Ctx Xml : Type} (env : Env Ctx Xml) (st : Settings)
    (s : ScraperState Ctx) (c : Ctx) (la : Bool) :
    (runWithCtx env st s c la).dumped =
      log_contents (runWithCtx env st s c la).state.modem_data := by
  rcases h : scrapeLoop env st.MODEM_HOST c END_POINTS s.modem_data with ⟨d', o, f⟩
  cases o <;> simp [runWithCtx, h, log_contents]

/-- C6: every invocation of run, whatever its outcome (cooldown skip, normal
completion, application error or caught exception), ends in the finally block
dumping via log_contents exactly the current Snapshot Store contents; the dump
is a total operation of the store alone (logging cannot raise), so it cannot
propagate an exception out of run and the session and countdown in the
resulting state are produced before and independently of it. -/
theorem run_always_dumps {Ctx Xml : Type} (env : Env Ctx Xml) (st : Settings)
    (s : ScraperState Ctx) :
    (run env st s).dumped = log_contents (run env st s).state.modem_data := by
  rcases s with ⟨d, ctx, cd⟩
  by_cases h : 0 < cd
  · simp [run, h, log_contents]
  · rcases ctx with _ | c
    · rcases hq : env.quick_login st.USERNAME st.PASSWORD st.MODEM_HOST with _ | c
      · simp [run, h, hq, log_contents]
      · simpa [run, h, hq] using runWithCtx_dumped env st ⟨d, none, cd⟩ c true
    · simpa [run, h] using runWithCtx_dumped env st ⟨d, some c, cd⟩ c false

theorem get_storeAll_not_mem (pre : List String) (d : ModemDict)
    (body : String → String) (k : String) (h : k ∉ pre) :
    get_data (storeAll d pre body) k = get_data d k := by
  induction pre generalizing d with
  | nil => rfl
  | cons a pre ih =>
      simp only [List.mem_cons] at h
      push_neg at h
      rw [storeAll, ih _ h.2, get_set, if_neg (Ne.symm h.1)]

theorem get_storeAll_mem (pre : List String) (d : ModemDict)
    (body : String → String) (k : String) (h : k ∈ pre) :
    get_data (storeAll d pre body) k = some (body k) := by
  induction pre generalizing d with
  | nil => cases h
  | cons a pre ih =>
      rw [storeAll]
      by_cases hk : k ∈ pre
      · exact ih _ hk
      · have hka : k = a := by
          rcases List.mem_cons.mp h with h1 | h1
          · exact h1
          · exact absurd h1 hk
        subst hka
        rw [get_storeAll_not_mem pre _ _ _ hk, get_set, if_pos rfl]

theorem scrapeLoop_transport_skip {Ctx Xml : Type} (env : Env Ctx Xml)
    (host : String) (c : Ctx) (ep : String) (rest : List String) (d : ModemDict)
    (r : FetchResult) (hf : env.get_from_url_raw (mkUrl host ep) c = .ok r)
    (hs : r.status_code ≠ 200) :
    scrapeLoop env host c (ep :: rest) d =
      ⟨(scrapeLoop env host c rest d).data, (scrapeLoop env host c rest d).outcome,
        (ep, c) :: (scrapeLoop env host c rest d).fetched⟩ := by
  simp [scrapeLoop, hf, hs]

theorem scrapeLoop_all_transport {Ctx Xml : Type} (env : Env Ctx Xml)
    (host : String) (c : Ctx) (eps : List String) (d : ModemDict)
    (h : ∀ ep ∈ eps, ∃ r, env.get_from_url_raw (mkUrl host ep) c = .ok r
        ∧ r.status_code ≠ 200) :
    scrapeLoop env host c eps d = ⟨d, .completed, eps.map (fun ep => (ep, c))⟩ := by
  induction eps with
  | nil => rfl
  | cons ep rest ih =>
      obtain ⟨r, hf, hs⟩ := h ep (List.mem_cons_self _ _)
      rw [scrapeLoop_transport_skip env host c ep rest d r hf hs,
        ih (fun e he => h e (List.mem_cons_of_mem _ he))]
      simp

theorem scrapeLoop_ok_prefix_appError {Ctx Xml : Type} (env : Env Ctx Xml)
    (host : String) (c : Ctx) (pre : List String) (b : String)
    (post : List String) (d : ModemDict) (body : String → String)
    (hpre : ∀ a ∈ pre, ∃ x, env.get_from_url_raw (mkUrl host a) c = .ok ⟨200, body a⟩
        ∧ env.parse_xml_string (body a) = .ok x
        ∧ env.check_error x.documentElement = .ok none)
    (hb : ∃ tb xb eb, env.get_from_url_raw (mkUrl host b) c = .ok ⟨200, tb⟩
        ∧ env.parse_xml_string tb = .ok xb
        ∧ env.check_error xb.documentElement = .ok (some eb)) :
    scrapeLoop env host c (pre ++ b :: post) d =
      ⟨storeAll d pre body, .appError, pre.map (fun a => (a, c)) ++ [(b, c)]⟩ := by
  induction pre generalizing d with
  | nil =>
      obtain ⟨tb, xb, eb, hf, hp, hc⟩ := hb
      simp [scrapeLoop, hf, hp, hc, storeAll]
  | cons a pre ih =>
      obtain ⟨x, hf, hp, hc⟩ := hpre a (List.mem_cons_self _ _)
      have ih2 := ih (set_data d a (body a))
        (fun e he => hpre e (List.mem_cons_of_mem _ he))
      simp [scrapeLoop, hf, hp, hc, ih2, storeAll]

theorem scrapeLoop_fetched_ctx {Ctx Xml : Type} (env : Env Ctx Xml)
    (host : String) (c : Ctx) (eps : List String) (d : ModemDict) :
    ∀ q ∈ (scrapeLoop env host c eps d).fetched, q.2 = c := by
  induction eps generalizing d with
  | nil => intro q hq; simp [scrapeLoop] at hq
  | cons ep rest ih =>
      intro q hq
      rcases hf : env.get_from_url_raw (mkUrl host ep) c with _ | r
      · simp [scrapeLoop, hf] at hq
        simp [hq]
      · by_cases hs : r.status_code = 200
        · rcases hp : env.parse_xml_string r.text with _ | x
          · simp [scrapeLoop, hf, hs, hp] at hq
            simp [hq]
          · rcases hc : env.check_error x.documentElement with _ | o
            · simp [scrapeLoop, hf, hs, hp, hc] at hq
              simp [hq]
            · rcases o with _ | e
              · simp [scrapeLoop, hf, hs, hp, hc] at hq
                rcases hq with hq | hq
                · simp [hq]
                · exact ih _ q hq
              · simp [scrapeLoop, hf, hs, hp, hc] at hq
                simp [hq]
        · simp [scrapeLoop, hf, hs] at hq
          rcases hq with hq | hq
          · simp [hq]
          · exact ih _ q hq

theorem scrapeLoop_fetched_head {Ctx Xml : Type} (env : Env Ctx Xml)
    (host : String) (c : Ctx) (ep : String) (rest : List String) (d : ModemDict) :
    (scrapeLoop env host c (ep :: rest) d).fetched.head? = some (ep, c) := by
  rcases hf : env.get_from_url_raw (mkUrl host ep) c with _ | r
  · simp [scrapeLoop, hf]
  · by_cases hs : r.status_code = 200
    · rcases hp : env.parse_xml_string r.text with _ | x
      · simp [scrapeLoop, hf, hs, hp]
      · rcases hc : env.check_error x.documentElement with _ | o
        · simp [scrapeLoop, hf, hs, hp, hc]
        · rcases o with _ | e <;> simp [scrapeLoop, hf, hs, hp, hc]
    · simp [scrapeLoop, hf, hs]

/-- C2 counterexample evidence: for every cached dictionary and every endpoint
path, the handler raises AttributeError, because it accesses the attribute
named get on the ModemData instance while the class only defines the accessor
get_data; no response with the cached body is ever produced. -/
theorem end_point_handler_attribute_error (d : ModemDict) (endpoint : String) :
    end_point_handler d endpoint = .error ("AttributeError") := rfl

theorem run_skip {Ctx Xml : Type} (env : Env Ctx Xml) (st : Settings)
    (s : ScraperState Ctx) (h : 0 < s.error_countdown) :
    run env st s = ⟨⟨s.modem_data, s.ctx, s.error_countdown - 1⟩, .skipped,
      false, [], log_contents s.modem_data⟩ := by
  simp [run, h]

theorem run_with_session {Ctx Xml : Type} (env : Env Ctx Xml) (st : Settings)
    (s : ScraperState Ctx) (c : Ctx) (hcd : ¬ 0 < s.error_countdown)
    (hc : s.ctx = some c) :
    run env st s = runWithCtx env st s c false := by
  simp [run, hcd, hc]

theorem run_login_ok {Ctx Xml : Type} (env : Env Ctx Xml) (st : Settings)
    (s : ScraperState Ctx) (c : Ctx) (hcd : ¬ 0 < s.error_countdown)
    (hc : s.ctx = none)
    (hq : env.quick_login st.USERNAME st.PASSWORD st.MODEM_HOST = .ok c) :
    run env st s = runWithCtx env st s c true := by
  simp [run, hcd, hc, hq]

theorem run_login_raised {Ctx Xml : Type} (env : Env Ctx Xml) (st : Settings)
    (s : ScraperState Ctx) (e : Unit) (hcd : ¬ 0 < s.error_countdown)
    (hc : s.ctx = none)
    (hq : env.quick_login st.USERNAME st.PASSWORD st.MODEM_HOST = .error e) :
    run env st s = ⟨⟨s.modem_data, none, st.ERROR_COUNTDOWN⟩, .raised, true, [],
      log_contents s.modem_data⟩ := by
  simp [run, hcd, hc, hq]

theorem runWithCtx_spec {Ctx Xml : Type} (env : Env Ctx Xml) (st : Settings)
    (s : ScraperState Ctx) (c : Ctx) (la : Bool) :
    (runWithCtx env st s c la).loginAttempted = la
    ∧ (runWithCtx env st s c la).fetched =
        (scrapeLoop env st.MODEM_HOST c END_POINTS s.modem_data).fetched
    ∧ (runWithCtx env st s c la).state.modem_data =
        (scrapeLoop env st.MODEM_HOST c END_POINTS s.modem_data).data
    ∧ ((runWithCtx env st s c la).outcome = .raised ↔
        (scrapeLoop env st.MODEM_HOST c END_POINTS s.modem_data).outcome = .raised)
    ∧ ((runWithCtx env st s c la).outcome = .raised
        ∨ (runWithCtx env st s c la).outcome = .appError →
        (runWithCtx env st s c la).state.ctx = none
        ∧ (runWithCtx env st s c la).state.error_countdown = st.ERROR_COUNTDOWN)
    ∧ ((runWithCtx env st s c la).outcome = .completed →
        (runWithCtx env st s c la).state.ctx = some c
        ∧ (runWithCtx env st s c la).state.error_countdown = s.error_countdown) := by
  rcases hl : scrapeLoop env st.MODEM_HOST c END_POINTS s.modem_data with ⟨d', o, f⟩
  cases o <;> simp [runWithCtx, hl]

/-- C4: a fetch answered with a transport status other than 200 is skipped:
the dictionary is handed unchanged to the rest of the loop, the loop continues
with the next endpoint (the skipped endpoint is merely recorded in the fetch
trace), and when every endpoint of a run answers with a non-200 status the run
completes normally with the store untouched, the session kept and the cooldown
not set. -/
theorem transport_error_skips {Ctx Xml : Type} (env : Env Ctx Xml)
    (st : Settings) (s : ScraperState Ctx) (c : Ctx) :
    (∀ (ep : String) (rest : List String) (d : ModemDict) (r : FetchResult),
        env.get_from_url_raw (mkUrl st.MODEM_HOST ep) c = .ok r →
        r.status_code ≠ 200 →
        scrapeLoop env st.MODEM_HOST c (ep :: rest) d =
          ⟨(scrapeLoop env st.MODEM_HOST c rest d).data,
           (scrapeLoop env st.MODEM_HOST c rest d).outcome,
           (ep, c) :: (scrapeLoop env st.MODEM_HOST c rest d).fetched⟩)
    ∧ (s.error_countdown ≤ 0 → s.ctx = some c →
        (∀ ep ∈ END_POINTS, ∃ r,
            env.get_from_url_raw (mkUrl st.MODEM_HOST ep) c = .ok r
            ∧ r.status_code ≠ 200) →
        run env st s = ⟨⟨s.modem_data, some c, s.error_countdown⟩, .completed,
          false, END_POINTS.map (fun ep => (ep, c)),
          log_contents s.modem_data⟩) := by
  constructor
  · intro ep rest d r hf hs
    exact scrapeLoop_transport_skip env st.MODEM_HOST c ep rest d r hf hs
  · intro hcd hc hall
    rw [run_with_session env st s c (not_lt.mpr hcd) hc]
    have hl := scrapeLoop_all_transport env st.MODEM_HOST c END_POINTS
      s.modem_data hall
    simp [runWithCtx, hl, log_contents]

/-- Witness for C4 at concrete inputs. -/
theorem transport_error_skips_witness :
    scrapeLoop failEnv ("h") 7 (("/api/device/signal") :: []) [] =
      ⟨(scrapeLoop failEnv ("h") 7 [] []).data,
       (scrapeLoop failEnv ("h") 7 [] []).outcome,
       (("/api/device/signal"), 7) :: (scrapeLoop failEnv ("h") 7 [] []).fetched⟩
    ∧ run failEnv stW ⟨[], some 7, 0⟩ =
        ⟨⟨[], some 7, 0⟩, .completed, false,
          END_POINTS.map (fun ep => (ep, 7)), log_contents []⟩ := by
  have h := transport_error_skips failEnv stW ⟨[], some 7, 0⟩ 7
  refine ⟨h.1 ("/api/device/signal") [] [] ⟨500, ""⟩ rfl (by decide), ?_⟩
  exact h.2 (by decide) rfl (fun ep hep => ⟨⟨500, ""⟩, rfl, by decide⟩)

/-- C5: exceptions raised by login or inside the fetch loop are caught at run
level; run is a total function of its inputs (the except clause catches
everything), and both a caught exception and an application error end the run
with the session cleared and the cooldown set to the configured value. -/
theorem exceptions_recovered {Ctx Xml : Type} (env : Env Ctx Xml)
    (st : Settings) (s : ScraperState Ctx) (hcd : s.error_countdown ≤ 0) :
    ((run env st s).outcome = .raised ∨ (run env st s).outcome = .appError →
        (run env st s).state.ctx = none
        ∧ (run env st s).state.error_countdown = st.ERROR_COUNTDOWN)
    ∧ (s.ctx = none →
        env.quick_login st.USERNAME st.PASSWORD st.MODEM_HOST = .error () →
        (run env st s).outcome = .raised)
    ∧ (∀ c, s.ctx = some c →
        (scrapeLoop env st.MODEM_HOST c END_POINTS s.modem_data).outcome = .raised →
        (run env st s).outcome = .raised) := by
  have hncd : ¬ 0 < s.error_countdown := not_lt.mpr hcd
  rcases hctx : s.ctx with _ | c0
  · rcases hq : env.quick_login st.USERNAME st.PASSWORD st.MODEM_HOST with e | c
    · rw [run_login_raised env st s e hncd hctx hq]
      refine ⟨fun _ => ⟨rfl, rfl⟩, fun _ _ => rfl, fun c hc _ => ?_⟩
      simp at hc
    · rw [run_login_ok env st s c hncd hctx hq]
      have hcase := runWithCtx_spec env st s c true
      refine ⟨hcase.2.2.2.2.1, fun _ h2 => ?_, fun c1 hc1 _ => ?_⟩
      · simp at h2
      · simp at hc1
  · rw [run_with_session env st s c0 hncd hctx]
    have hcase := runWithCtx_spec env st s c0 false
    refine ⟨hcase.2.2.2.2.1, fun h1 _ => ?_, fun c1 hc1 hl => ?_⟩
    · simp at h1
    · have hc10 : c1 = c0 := (Option.some.inj hc1).symm
      subst hc10
      exact hcase.2.2.2.1.mpr hl

/-- Witness for C5 at concrete inputs. -/
theorem exceptions_recovered_witness :
    (run loginErrEnv stW (⟨[], none, 0⟩ : ScraperState Nat)).outcome = .raised
    ∧ (run loginErrEnv stW (⟨[], none, 0⟩ : ScraperState Nat)).state.ctx = none
    ∧ (run loginErrEnv stW (⟨[], none, 0⟩ : ScraperState Nat)).state.error_countdown
        = stW.ERROR_COUNTDOWN := by
  have h := exceptions_recovered loginErrEnv stW ⟨[], none, 0⟩ (by decide)
  have ho := h.2.1 rfl rfl
  exact ⟨ho, (h.1 (Or.inl ho)).1, (h.1 (Or.inl ho)).2⟩

/-- C7: on a tick that passes the cooldown check, quick_login is called if and
only if the session handle is absent; when a session handle c is present every
fetch of the run is made with c, and a normally completed run keeps c as the
session for subsequent ticks. -/
theorem login_iff_absent {Ctx Xml : Type} (env : Env Ctx Xml) (st : Settings)
    (s : ScraperState Ctx) (hcd : s.error_countdown ≤ 0) :
    ((run env st s).loginAttempted = true ↔ s.ctx = none)
    ∧ (∀ c, s.ctx = some c →
        (∀ q ∈ (run env st s).fetched, q.2 = c)
        ∧ ((run env st s).outcome = .completed →
            (run env st s).state.ctx = some c)) := by
  have hncd : ¬ 0 < s.error_countdown := not_lt.mpr hcd
  rcases hctx : s.ctx with _ | c0
  · rcases hq : env.quick_login st.USERNAME st.PASSWORD st.MODEM_HOST with e | c
    · rw [run_login_raised env st s e hncd hctx hq]
      refine ⟨by simp, fun c hc => ?_⟩
      simp at hc
    · rw [run_login_ok env st s c hncd hctx hq]
      have hcase := runWithCtx_spec env st s c true
      refine ⟨by simp [hcase.1], fun c1 hc1 => ?_⟩
      simp at hc1
  · rw [run_with_session env st s c0 hncd hctx]
    have hcase := runWithCtx_spec env st s c0 false
    refine ⟨by simp [hcase.1, hctx], fun c1 hc1 => ?_⟩
    have hc10 : c1 = c0 := (Option.some.inj hc1).symm
    subst hc10
    refine ⟨fun q hq => ?_, fun hco => (hcase.2.2.2.2.2 hco).1⟩
    rw [hcase.2.1] at hq
    exact scrapeLoop_fetched_ctx env st.MODEM_HOST c1 END_POINTS s.modem_data q hq

/-- Witness for C7 at concrete inputs. -/
theorem login_iff_absent_witness :
    ((run okEnv stW (⟨[], some 7, 0⟩ : ScraperState Nat)).loginAttempted = true
      ↔ (⟨[], some 7, 0⟩ : ScraperState Nat).ctx = none)
    ∧ (∀ q ∈ (run okEnv stW (⟨[], some 7, 0⟩ : ScraperState Nat)).fetched,
        q.2 = 7) := by
  have h := login_iff_absent okEnv stW ⟨[], some 7, 0⟩ (by decide)
  exact ⟨h.1, (h.2 7 rfl).1⟩

theorem endpoints_nodup : END_POINTS.Nodup := by decide

/-- C1: in a run with an effective session c whose endpoint order splits as
pre ++ b :: post, where every endpoint of pre succeeds with no error marker
and b returns status 200 with an application error marker in its body: after
the run every endpoint of pre holds its newly fetched body in the store, the
entries for b and for every endpoint after it are unchanged, the endpoints
after b are never fetched, the session handle is cleared and the cooldown
counter equals the configured value. -/
theorem app_error_aborts_run {Ctx Xml : Type} (env : Env Ctx Xml)
    (st : Settings) (s : ScraperState Ctx) (c : Ctx) (pre : List String)
    (b : String) (post : List String) (body : String → String)
    (hsplit : END_POINTS = pre ++ b :: post)
    (hcd : s.error_countdown ≤ 0)
    (hctx : s.ctx = some c ∨ (s.ctx = none ∧
        env.quick_login st.USERNAME st.PASSWORD st.MODEM_HOST = .ok c))
    (hpre : ∀ a ∈ pre, ∃ x,
        env.get_from_url_raw (mkUrl st.MODEM_HOST a) c = .ok ⟨200, body a⟩
        ∧ env.parse_xml_string (body a) = .ok x
        ∧ env.check_error x.documentElement = .ok none)
    (hb : ∃ tb xb eb,
        env.get_from_url_raw (mkUrl st.MODEM_HOST b) c = .ok ⟨200, tb⟩
        ∧ env.parse_xml_string tb = .ok xb
        ∧ env.check_error xb.documentElement = .ok (some eb)) :
    (∀ a ∈ pre, get_data (run env st s).state.modem_data a = some (body a))
    ∧ get_data (run env st s).state.modem_data b = get_data s.modem_data b
    ∧ (∀ e2 ∈ post,
        get_data (run env st s).state.modem_data e2 = get_data s.modem_data e2)
    ∧ (run env st s).state.ctx = none
    ∧ (run env st s).state.error_countdown = st.ERROR_COUNTDOWN
    ∧ (∀ e2 ∈ post, e2 ∉ (run env st s).fetched.map Prod.fst) := by
  have hncd : ¬ 0 < s.error_countdown := not_lt.mpr hcd
  obtain ⟨la, hrun⟩ : ∃ la, run env st s = runWithCtx env st s c la := by
    rcases hctx with h | ⟨h1, h2⟩
    · exact ⟨false, run_with_session env st s c hncd h⟩
    · exact ⟨true, run_login_ok env st s c hncd h1 h2⟩
  have hl : scrapeLoop env st.MODEM_HOST c END_POINTS s.modem_data =
      ⟨storeAll s.modem_data pre body, .appError,
        pre.map (fun a => (a, c)) ++ [(b, c)]⟩ := by
    rw [hsplit]
    exact scrapeLoop_ok_prefix_appError env st.MODEM_HOST c pre b post
      s.modem_data body hpre hb
  have hred : run env st s =
      ⟨⟨storeAll s.modem_data pre body, none, st.ERROR_COUNTDOWN⟩, .appError,
        la, pre.map (fun a => (a, c)) ++ [(b, c)],
        log_contents (storeAll s.modem_data pre body)⟩ := by
    rw [hrun]
    simp [runWithCtx, hl]
  have hnods : (pre ++ b :: post).Nodup := hsplit ▸ endpoints_nodup
  obtain ⟨h1, h2, hdisj⟩ := List.nodup_append.mp hnods
  have hbpre : b ∉ pre := fun hbp => hdisj hbp (List.mem_cons_self _ _)
  have hpostpre : ∀ e ∈ post, e ∉ pre :=
    fun e he hep => hdisj hep (List.mem_cons_of_mem _ he)
  have hbpost : b ∉ post := (List.nodup_cons.mp h2).1
  have hpostb : ∀ e ∈ post, e ≠ b := fun e he heb => hbpost (heb ▸ he)
  rw [hred]
  refine ⟨?_, ?_, ?_, rfl, rfl, ?_⟩
  · intro a ha
    exact get_storeAll_mem pre s.modem_data body a ha
  · exact get_storeAll_not_mem pre s.modem_data body b hbpre
  · intro e he
    exact get_storeAll_not_mem pre s.modem_data body e (hpostpre e he)
  · intro e he hmem
    simp only [List.map_append, List.map_map, List.map_cons, List.map_nil,
      List.mem_append, List.mem_singleton, Function.comp] at hmem
    rcases hmem with hmem | hmem
    · obtain ⟨a, ha, rfl⟩ := List.mem_map.mp hmem
      exact hpostpre _ he ha
    · exact hpostb e he hmem

/-- Witness for C1 at concrete inputs. -/
theorem app_error_aborts_run_witness :
    get_data (run appErrEnv stW (⟨[], some 7, 0⟩ : ScraperState Nat)).state.modem_data
        ("/api/device/signal") = some (mkUrl ("h") ("/api/device/signal"))
    ∧ get_data (run appErrEnv stW (⟨[], some 7, 0⟩ : ScraperState Nat)).state.modem_data
        ("/api/net/net-mode") = get_data [] ("/api/net/net-mode")
    ∧ (run appErrEnv stW (⟨[], some 7, 0⟩ : ScraperState Nat)).state.ctx = none
    ∧ (run appErrEnv stW (⟨[], some 7, 0⟩ : ScraperState Nat)).state.error_countdown
        = stW.ERROR_COUNTDOWN
    ∧ ("/api/net/current-plmn") ∉
        (run appErrEnv stW (⟨[], some 7, 0⟩ : ScraperState Nat)).fetched.map Prod.fst := by
  have h := app_error_aborts_run appErrEnv stW ⟨[], some 7, 0⟩ 7
    (("/api/device/signal") :: []) ("/api/net/net-mode")
    (("/api/net/current-plmn") :: ("/api/device/information") ::
      ("/api/monitoring/traffic-statistics") :: [])
    (fun a => mkUrl ("h") a) rfl (by decide) (Or.inl rfl)
    (by
      intro a ha
      have ha2 : a = "/api/device/signal" := by
        simpa using ha
      subst ha2
      exact ⟨⟨mkUrl ("h") ("/api/device/signal")⟩, rfl, rfl, rfl⟩)
    ⟨mkUrl ("h") ("/api/net/net-mode"), ⟨mkUrl ("h") ("/api/net/net-mode")⟩,
      "112", rfl, rfl, rfl⟩
  exact ⟨h.1 _ (by decide), h.2.1, h.2.2.2.1, h.2.2.2.2.1,
    h.2.2.2.2.2 _ (by decide)⟩

/-- C3: if the cooldown counter holds N at some tick, then each of the next N
invocations of run is a pure skip — no login, no fetch, store and session
untouched — that decrements the counter by exactly one, the counter stays
non-negative throughout and reaches 0 after the N ticks, and invocation N+1
resumes normal operation: it attempts a login exactly when the session is
absent, and with a session c present it makes no login and fetches starting
with the first configured endpoint. -/
theorem cooldown_ticks {Ctx Xml : Type} (envs : Nat → Env Ctx Xml)
    (st : Settings) (s : ScraperState Ctx) (N : Nat)
    (hN : s.error_countdown = (N : Int)) :
    (∀ k, k < N → run (envs k) st (runs envs st s k) =
        ⟨⟨s.modem_data, s.ctx, ((N - (k + 1) : Nat) : Int)⟩, .skipped, false, [],
          log_contents s.modem_data⟩)
    ∧ (∀ k, k ≤ N → runs envs st s k =
        ⟨s.modem_data, s.ctx, ((N - k : Nat) : Int)⟩)
    ∧ (runs envs st s N).error_countdown = 0
    ∧ (∀ k, k ≤ N → 0 ≤ (runs envs st s k).error_countdown)
    ∧ ((runs envs st s N).ctx = none →
        (run (envs N) st (runs envs st s N)).loginAttempted = true)
    ∧ (∀ c, (runs envs st s N).ctx = some c →
        (run (envs N) st (runs envs st s N)).loginAttempted = false
        ∧ (run (envs N) st (runs envs st s N)).fetched.head? =
            some (("/api/device/signal"), c)) := by
  have key : ∀ k, k ≤ N → runs envs st s k =
      ⟨s.modem_data, s.ctx, ((N - k : Nat) : Int)⟩ := by
    intro k
    induction k with
    | zero =>
        intro _
        rw [Nat.sub_zero, runs, ← hN]
    | succ k ih =>
        intro hk1
        have hkN : k < N := Nat.lt_of_succ_le hk1
        rw [runs, ih (Nat.le_of_succ_le hk1),
          run_skip _ _ _ (show (0 : Int) < ((N - k : Nat) : Int) by
            exact_mod_cast Nat.sub_pos_of_lt hkN)]
        have hcast : ((N - k : Nat) : Int) - 1 = ((N - (k + 1) : Nat) : Int) := by
          omega
        simp [hcast]
  have stepEq : ∀ k, k < N → run (envs k) st (runs envs st s k) =
      ⟨⟨s.modem_data, s.ctx, ((N - (k + 1) : Nat) : Int)⟩, .skipped, false, [],
        log_contents s.modem_data⟩ := by
    intro k hk
    rw [key k (Nat.le_of_lt hk),
      run_skip _ _ _ (show (0 : Int) < ((N - k : Nat) : Int) by
        exact_mod_cast Nat.sub_pos_of_lt hk)]
    have hcast : ((N - k : Nat) : Int) - 1 = ((N - (k + 1) : Nat) : Int) := by
      omega
    simp [hcast]
  have hzero : (runs envs st s N).error_countdown = 0 := by
    rw [key N le_rfl]
    simp
  have hncd : ¬ 0 < (runs envs st s N).error_countdown := by
    rw [hzero]
    exact lt_irrefl 0
  refine ⟨stepEq, key, hzero, ?_, ?_, ?_⟩
  · intro k hk
    rw [key k hk]
    exact Int.natCast_nonneg _
  · intro hc
    rcases hq : (envs N).quick_login st.USERNAME st.PASSWORD st.MODEM_HOST
      with e | c
    · rw [run_login_raised _ st _ e hncd hc hq]
    · rw [run_login_ok _ st _ c hncd hc hq]
      exact (runWithCtx_spec (envs N) st (runs envs st s N) c true).1
  · intro c hc
    rw [run_with_session _ st _ c hncd hc]
    have hcase := runWithCtx_spec (envs N) st (runs envs st s N) c false
    refine ⟨hcase.1, ?_⟩
    rw [hcase.2.1]
    exact scrapeLoop_fetched_head (envs N) st.MODEM_HOST c
      ("/api/device/signal")
      (("/api/net/net-mode") :: ("/api/net/current-plmn") ::
        ("/api/device/information") :: ("/api/monitoring/traffic-statistics") :: [])
      (runs envs st s N).modem_data

/-- Witness for C3 at concrete inputs. -/
theorem cooldown_ticks_witness :
    runs (fun _ => okEnv) stW (⟨[], none, 2⟩ : ScraperState Nat) 2 =
      ⟨[], none, ((2 - 2 : Nat) : Int)⟩
    ∧ 0 ≤ (runs (fun _ => okEnv) stW (⟨[], none, 2⟩ : ScraperState Nat) 1).error_countdown
    ∧ (run okEnv stW
        (runs (fun _ => okEnv) stW (⟨[], none, 2⟩ : ScraperState Nat) 2)).loginAttempted
        = true := by
  have h := cooldown_ticks (fun _ => okEnv) stW ⟨[], none, 2⟩ 2 (by decide)
  exact ⟨h.2.1 2 le_rfl, h.2.2.2.1 1 (by decide), h.2.2.2.2.1 (by decide)⟩

theorem mem_keys_set (d : ModemDict) (k v a : String) :
    a ∈ (set_data d k v).map Prod.fst ↔ a = k ∨ a ∈ d.map Prod.fst := by
  induction d with
  | nil => simp [set_data]
  | cons p rest ih =>
      obtain ⟨x, y⟩ := p
      by_cases hx : x = k
      · subst hx
        simp [set_data]
      · simp only [set_data, if_neg hx, List.map_cons, List.mem_cons, ih]
        tauto

theorem scrapeLoop_keys {Ctx Xml : Type} (env : Env Ctx Xml) (host : String)
    (c : Ctx) (eps : List String) (d : ModemDict) (a : String)
    (h : a ∈ (scrapeLoop env host c eps d).data.map Prod.fst) :
    a ∈ d.map Prod.fst ∨ a ∈ eps := by
  induction eps generalizing d with
  | nil =>
      left
      simpa [scrapeLoop] using h
  | cons ep rest ih =>
      rcases hf : env.get_from_url_raw (mkUrl host ep) c with _ | r
      · left
        simpa [scrapeLoop, hf] using h
      · by_cases hs : r.status_code = 200
        · rcases hp : env.parse_xml_string r.text with _ | x
          · left
            simpa [scrapeLoop, hf, hs, hp] using h
          · rcases hc2 : env.check_error x.documentElement with _ | o
            · left
              simpa [scrapeLoop, hf, hs, hp, hc2] using h
            · rcases o with _ | e
              · have h2 : a ∈ (scrapeLoop env host c rest
                    (set_data d ep r.text)).data.map Prod.fst := by
                  simpa [scrapeLoop, hf, hs, hp, hc2] using h
                rcases ih _ h2 with h3 | h3
                · rcases (mem_keys_set d ep r.text a).mp h3 with h4 | h4
                  · exact Or.inr (h4 ▸ List.mem_cons_self _ _)
                  · exact Or.inl h4
                · exact Or.inr (List.mem_cons_of_mem _ h3)
              · left
                simpa [scrapeLoop, hf, hs, hp, hc2] using h
        · have h2 : a ∈ (scrapeLoop env host c rest d).data.map Prod.fst := by
            simpa [scrapeLoop, hf, hs] using h
          rcases ih _ h2 with h3 | h3
          · exact Or.inl h3
          · exact Or.inr (List.mem_cons_of_mem _ h3)

theorem scrapeLoop_keys_mono {Ctx Xml : Type} (env : Env Ctx Xml)
    (host : String) (c : Ctx) (eps : List String) (d : ModemDict) (a : String)
    (h : a ∈ d.map Prod.fst) :
    a ∈ (scrapeLoop env host c eps d).data.map Prod.fst := by
  induction eps generalizing d with
  | nil => simpa [scrapeLoop] using h
  | cons ep rest ih =>
      rcases hf : env.get_from_url_raw (mkUrl host ep) c with _ | r
      · simpa [scrapeLoop, hf] using h
      · by_cases hs : r.status_code = 200
        · rcases hp : env.parse_xml_string r.text with _ | x
          · simpa [scrapeLoop, hf, hs, hp] using h
          · rcases hc2 : env.check_error x.documentElement with _ | o
            · simpa [scrapeLoop, hf, hs, hp, hc2] using h
            · rcases o with _ | e
              · have h2 := ih (set_data d ep r.text)
                  ((mem_keys_set d ep r.text a).mpr (Or.inr h))
                simpa [scrapeLoop, hf, hs, hp, hc2] using h2
              · simpa [scrapeLoop, hf, hs, hp, hc2] using h
        · have h2 := ih d h
          simpa [scrapeLoop, hf, hs] using h2

theorem run_keys {Ctx Xml : Type} (env : Env Ctx Xml) (st : Settings)
    (s : ScraperState Ctx) (a : String) :
    (a ∈ (run env st s).state.modem_data.map Prod.fst →
      a ∈ s.modem_data.map Prod.fst ∨ a ∈ END_POINTS)
    ∧ (a ∈ s.modem_data.map Prod.fst →
        a ∈ (run env st s).state.modem_data.map Prod.fst) := by
  by_cases hcd : 0 < s.error_countdown
  · rw [run_skip env st s hcd]
    exact ⟨Or.inl, id⟩
  · rcases hctx : s.ctx with _ | c0
    · rcases hq : env.quick_login st.USERNAME st.PASSWORD st.MODEM_HOST
        with e | c
      · rw [run_login_raised env st s e hcd hctx hq]
        exact ⟨Or.inl, id⟩
      · rw [run_login_ok env st s c hcd hctx hq,
          (runWithCtx_spec env st s c true).2.2.1]
        exact ⟨scrapeLoop_keys env st.MODEM_HOST c END_POINTS s.modem_data a,
          scrapeLoop_keys_mono env st.MODEM_HOST c END_POINTS s.modem_data a⟩
    · rw [run_with_session env st s c0 hcd hctx,
        (runWithCtx_spec env st s c0 false).2.2.1]
      exact ⟨scrapeLoop_keys env st.MODEM_HOST c0 END_POINTS s.modem_data a,
        scrapeLoop_keys_mono env st.MODEM_HOST c0 END_POINTS s.modem_data a⟩

/-- C9: starting from the freshly constructed state (empty dictionary), after
any number of ticks every key present in the Snapshot Store dictionary is one
of the five END_POINTS — the fetch loop is the only writer and only ever
stores under an element of the endpoint list — and no operation deletes an
entry: a key present after tick n is still present after every later tick. -/
theorem snapshot_keys_endpoints {Ctx Xml : Type} (envs : Nat → Env Ctx Xml)
    (st : Settings) (n : Nat) (k : String) :
    (k ∈ (runs envs st (initialState Ctx) n).modem_data.map Prod.fst →
      k ∈ END_POINTS)
    ∧ (∀ m, n ≤ m →
        k ∈ (runs envs st (initialState Ctx) n).modem_data.map Prod.fst →
        k ∈ (runs envs st (initialState Ctx) m).modem_data.map Prod.fst) := by
  constructor
  · induction n with
    | zero =>
        intro h
        simp [runs, initialState] at h
    | succ n ih =>
        intro h
        rw [runs] at h
        rcases (run_keys (envs n) st _ k).1 h with h2 | h2
        · exact ih h2
        · exact h2
  · intro m hm hk
    obtain ⟨j, rfl⟩ : ∃ j, m = n + j := ⟨m - n, (Nat.add_sub_cancel' hm).symm⟩
    clear hm
    induction j with
    | zero => exact hk
    | succ j ihj =>
        rw [show n + (j + 1) = (n + j) + 1 from rfl, runs]
        exact (run_keys (envs (n + j)) st _ k).2 ihj

/-- Witness for C9 at concrete inputs. -/
theorem snapshot_keys_endpoints_witness :
    ("/api/device/signal") ∈ END_POINTS
    ∧ ("/api/device/signal") ∈
        (runs (fun _ => okEnv) stW (initialState Nat) 2).modem_data.map Prod.fst := by
  have h := snapshot_keys_endpoints (fun _ => okEnv) stW 1 ("/api/device/signal")
  exact ⟨h.1 (by decide), h.2 2 (by decide) (by decide)⟩

end HuaweiProxy
